import Mathlib

/-!
Verification of the ckLightning canister's funding ledger and withdrawal
protocol against its natural-language specification.

The Rust source is shallowly embedded as follows:

* `std::collections::HashMap` is modelled as an association list
  (`List (key × value)`) with no duplicate-key invariant imposed; the
  iteration order of a `HashMap` is unspecified in Rust, and here it is the
  order of the association list.
* `candid::Nat` (arbitrary-precision non-negative integer) is `Nat`.
* Rust `u64` values are `Nat` values, reduced modulo `2 ^ 64` exactly where
  the source performs a width-limited operation.
* Fallible Rust code returns `Except Error _`; code that can panic (index
  out of bounds, `candid::Nat` subtraction underflow) returns `Option _`,
  with `none` standing for the panic (an IC canister trap).
* The asynchronous inter-canister ledger call in `execute_ledger_transfer`
  and `simple_withdraw` is modelled by passing the call's outcome as an
  explicit argument.
* `ed25519_dalek::Sha512` (the `Hasher` used by `Hash::digest`) is an
  external dependency of the source; it is implemented here as standard
  SHA-512 with its round and initialisation constants computed from the
  FIPS 180-4 definition (fractional parts of cube and square roots of the
  first primes).
* The struct `WithdrawalReq` is declared in a module of this repository that
  is not part of the sources under verification; its two fields are taken
  from their uses in lib.rs (`req.receiver : Principal`, `req.amount : Nat`).
* The ICRC receiver subsystem is an external collaborator and is not
  modelled; `CanisterState` here carries the three maps that the verified
  operations read and write.
-/

namespace CkLightning

/-! ### Association-list maps (shallow embedding of HashMap) -/

def assocGet [DecidableEq κ] : List (κ × α) → κ → Option α
  | [], _ => none
  | (k', v) :: rest, k => if k = k' then some v else assocGet rest k

def assocInsert [DecidableEq κ] : List (κ × α) → κ → α → List (κ × α)
  | [], k, v => [(k, v)]
  | (k', v') :: rest, k, v =>
      if k = k' then (k', v) :: rest else (k', v') :: assocInsert rest k v

def assocRemove [DecidableEq κ] : List (κ × α) → κ → List (κ × α)
  | [], _ => []
  | (k', v') :: rest, k =>
      if k = k' then rest else (k', v') :: assocRemove rest k

/-! ### SHA-512 (the source's `Hasher`, an external dependency)

Constants are computed from the FIPS 180-4 definition: the round constants
are the first 64 bits of the fractional parts of the cube roots of the first
eighty primes; the initial hash value is the first 64 bits of the fractional
parts of the square roots of the first eight primes. -/

def w64mod : Nat := 18446744073709551616

def primes80 : List Nat :=
  [2, 3, 5, 7, 11, 13, 17, 19, 23, 29, 31, 37, 41, 43, 47, 53, 59, 61, 67, 71,
   73, 79, 83, 89, 97, 101, 103, 107, 109, 113, 127, 131, 137, 139, 149, 151,
   157, 163, 167, 173, 179, 181, 191, 193, 197, 199, 211, 223, 227, 229, 233,
   239, 241, 251, 257, 263, 269, 271, 277, 281, 283, 293, 307, 311, 313, 317,
   331, 337, 347, 349, 353, 359, 367, 373, 379, 383, 389, 397, 401, 409]

def icbrtGo (n : Nat) : Nat → Nat → Nat → Nat
  | 0, lo, _ => lo
  | fuel + 1, lo, hi =>
      if hi ≤ lo + 1 then lo
      else
        let mid := (lo + hi) / 2
        if mid * mid * mid ≤ n then icbrtGo n fuel mid hi else icbrtGo n fuel lo mid

/-- Integer cube root by binary search; fuel 300 covers all inputs below 2 ^ 299. -/
def icbrt (n : Nat) : Nat := icbrtGo n 300 0 (n + 1)

def sha512K : List Nat := primes80.map (fun p => icbrt (p * 2 ^ 192) % w64mod)

def sha512H : List Nat := (primes80.take 8).map (fun p => Nat.sqrt (p * 2 ^ 128) % w64mod)

def rotr64 (x n : Nat) : Nat := x / 2 ^ n + x % 2 ^ n * 2 ^ (64 - n)

def not64 (x : Nat) : Nat := x ^^^ (w64mod - 1)

def sha512Ch (e f g : Nat) : Nat := (e &&& f) ^^^ (not64 e &&& g)

def sha512Maj (a b c : Nat) : Nat := (a &&& b) ^^^ (a &&& c) ^^^ (b &&& c)

def bsig0 (x : Nat) : Nat := rotr64 x 28 ^^^ rotr64 x 34 ^^^ rotr64 x 39

def bsig1 (x : Nat) : Nat := rotr64 x 14 ^^^ rotr64 x 18 ^^^ rotr64 x 41

def ssig0 (x : Nat) : Nat := rotr64 x 1 ^^^ rotr64 x 8 ^^^ x / 2 ^ 7

def ssig1 (x : Nat) : Nat := rotr64 x 19 ^^^ rotr64 x 61 ^^^ x / 2 ^ 6

structure Sha512State where
  a : Nat
  b : Nat
  c : Nat
  d : Nat
  e : Nat
  f : Nat
  g : Nat
  h : Nat

def sha512Init : Sha512State :=
  { a := sha512H.getD 0 0, b := sha512H.getD 1 0, c := sha512H.getD 2 0,
    d := sha512H.getD 3 0, e := sha512H.getD 4 0, f := sha512H.getD 5 0,
    g := sha512H.getD 6 0, h := sha512H.getD 7 0 }

def sha512Round (w k : Nat) (st : Sha512State) : Sha512State :=
  let t1 := (st.h + bsig1 st.e + sha512Ch st.e st.f st.g + k + w) % w64mod
  let t2 := (bsig0 st.a + sha512Maj st.a st.b st.c) % w64mod
  { a := (t1 + t2) % w64mod, b := st.a, c := st.b, d := st.c,
    e := (st.d + t1) % w64mod, f := st.e, g := st.f, h := st.g }

def extendW : List Nat → Nat → List Nat
  | w, 0 => w
  | w, k + 1 =>
      let n := w.length
      extendW
        (w ++ [(ssig1 (w.getD (n - 2) 0) + w.getD (n - 7) 0 +
                ssig0 (w.getD (n - 15) 0) + w.getD (n - 16) 0) % w64mod]) k

def sha512Compress (st : Sha512State) (block : List Nat) : Sha512State :=
  let w := extendW block 64
  let r := (w.zip sha512K).foldl (fun acc p => sha512Round p.1 p.2 acc) st
  { a := (st.a + r.a) % w64mod, b := (st.b + r.b) % w64mod,
    c := (st.c + r.c) % w64mod, d := (st.d + r.d) % w64mod,
    e := (st.e + r.e) % w64mod, f := (st.f + r.f) % w64mod,
    g := (st.g + r.g) % w64mod, h := (st.h + r.h) % w64mod }

def beBytes8 (n : Nat) : List Nat := (List.range 8).map (fun i => n / 256 ^ (7 - i) % 256)

def beBytes16 (n : Nat) : List Nat := (List.range 16).map (fun i => n / 256 ^ (15 - i) % 256)

def wordOfBytes (bs : List Nat) : Nat := bs.foldl (fun acc x => acc * 256 + x) 0

def bytesToWords64 (b : List Nat) : List Nat :=
  (List.range 16).map (fun i => wordOfBytes ((b.drop (8 * i)).take 8))

def chunks128 : Nat → List Nat → List (List Nat)
  | 0, _ => []
  | _, [] => []
  | fuel + 1, l => l.take 128 :: chunks128 fuel (l.drop 128)

def sha512Pad (msg : List Nat) : List Nat :=
  msg ++ [128] ++ List.replicate ((128 - (msg.length + 17) % 128) % 128) 0 ++
    beBytes16 (8 * msg.length)

def sha512 (msg : List Nat) : List Nat :=
  let padded := sha512Pad msg
  let final := (chunks128 (padded.length + 1) padded).foldl
    (fun st b => sha512Compress st (bytesToWords64 b)) sha512Init
  beBytes8 final.a ++ beBytes8 final.b ++ beBytes8 final.c ++ beBytes8 final.d ++
    beBytes8 final.e ++ beBytes8 final.f ++ beBytes8 final.g ++ beBytes8 final.h

/-! ### Data model (src/src/types.rs) -/

/-- An IC principal; its textual/byte representation is opaque to the verified
    code, so it is carried as a byte list. -/
structure Principal where
  bytes : List Nat
deriving DecidableEq

/-- A layer-2 account identifier (source: a secp256k1 public key); carried as
    its 33-byte compressed serialisation, which is what the source feeds to
    the hash functions. -/
structure L2Account where
  bytes : List Nat
deriving DecidableEq

/-- Unique Perun channel identifier, a 32-byte array. -/
structure ChannelId where
  bytes : List Nat
deriving DecidableEq

/-- A layer-1 account identifier. -/
structure L1Account where
  principal : Principal
deriving DecidableEq

/-- A channel's unique nonce, a 32-byte array. -/
structure Nonce where
  bytes : List Nat
deriving DecidableEq

/-- Identifies the funds belonging to a certain layer-2 identity within a
    certain channel. -/
structure Funding where
  channel : ChannelId
  participant : L2Account
deriving DecidableEq

/-- The immutable parameters of a Perun channel. -/
structure Params where
  nonce : Nonce
  participants : List L2Account
  challenge_duration : Nat
deriving DecidableEq

/-- The mutable state of a Perun channel. -/
structure State where
  channel : ChannelId
  version : Nat
  allocation : List Nat
  finalized : Bool
deriving DecidableEq

/-- A registered channel's state together with its challenge timeout. -/
structure RegisteredState where
  state : State
  timeout : Nat
deriving DecidableEq

/-- The canister's error type (src/src/error.rs). The payload of
    `ReceiverError` lives in the receiver module, which is an external
    collaborator here, so the variant is carried without it. -/
inductive Error where
  | Authentication
  | NotFinalized
  | AlreadyConcluded
  | InvalidInput
  | InsufficientFunding
  | InsufficientLiquidity
  | OutdatedState
  | LedgerError
  | ReceiverError
  | ConfirmationError
deriving DecidableEq

/-- Modelled from the spec: the withdrawal request type `WithdrawalReq` is
    declared in the repository's receiver module, which is not among the
    sources under verification; lib.rs only reads `req.receiver` (the
    layer-1 destination principal) and `req.amount` (the requested amount),
    matching the spec's WithdrawalRequest fields `receiver` and `amount`. -/
structure WithdrawalReq where
  receiver : Principal
  amount : Nat
deriving DecidableEq

/-- The canister's state (src/src/lib.rs): deposits and withdrawable
    balances per funding, the registered channels, and the liquidity-pool
    balances. The ICRC receiver is an external collaborator and not part of
    the verified state. -/
structure CanisterState where
  user_holdings : List (Funding × Nat)
  channels : List (ChannelId × RegisteredState)
  liq_pool_holdings : List (L1Account × Nat)
deriving DecidableEq

/-! ### Pure operations from src/src/types.rs -/

/-- Hash.digest: the SHA-512 digest of a byte string. -/
def Hash.digest (msg : List Nat) : List Nat := sha512 msg

/-- Interpretation of an 8-byte array as a little-endian u64
    (Rust `u64::from_le_bytes`): byte 0 is least significant. -/
def u64FromLeBytes (bs : List Nat) : Nat := bs.foldr (fun b acc => b + 256 * acc) 0

/-- Little-endian byte serialisation of a u64 (Rust `u64::to_le_bytes`). -/
def u64ToLeBytes (n : Nat) : List Nat := (List.range 8).map (fun i => n / 256 ^ i % 256)

/-- Funding.memo: hash the channel id concatenated with the participant's
    serialised public key, then read the first eight digest bytes as a
    little-endian u64. -/
def Funding.memo (f : Funding) : Nat :=
  let data := f.channel.bytes ++ f.participant.bytes
  let h := Hash.digest data
  u64FromLeBytes
    [h.getD 0 0, h.getD 1 0, h.getD 2 0, h.getD 3 0,
     h.getD 4 0, h.getD 5 0, h.getD 6 0, h.getD 7 0]

/-- Params.id: digest of nonce, participant keys, and the little-endian
    challenge duration; the first 32 digest bytes form the channel id. -/
def Params.id (p : Params) : ChannelId :=
  let bytes := p.nonce.bytes ++ (p.participants.map L2Account.bytes).flatten ++
    u64ToLeBytes p.challenge_duration
  ChannelId.mk ((Hash.digest bytes).take 32)

/-- State.total: the sum of the allocation. -/
def State.total (s : State) : Nat := s.allocation.foldl (fun x y => x + y) 0

/-- State.may_be_underfunded: only a channel's initial, non-finalized state
    may be funded less than its allocation. -/
def State.may_be_underfunded (s : State) : Bool := s.version == 0 && !s.finalized

/-- RegisteredState.settled: a registered state is settled once finalized or
    once its challenge timeout has passed. -/
def RegisteredState.settled (rs : RegisteredState) (now : Nat) : Bool :=
  rs.state.finalized || decide (now ≥ rs.timeout)

/-! ### Canister operations (src/src/lib.rs) -/

/-- query_holdings: the funds deposited for a channel's participant, if any. -/
def query_holdings (s : CanisterState) (f : Funding) : Option Nat :=
  assocGet s.user_holdings f

/-- state: the latest registered state for a channel, if any. -/
def CanisterState.state (s : CanisterState) (id : ChannelId) : Option RegisteredState :=
  assocGet s.channels id

/-- holdings_total: the total funds held in a channel, summing each
    participant's entry under the key derived from the params, with missing
    entries read as zero. -/
def holdings_total (s : CanisterState) (params : Params) : Nat :=
  params.participants.foldl
    (fun acc pk => acc + (assocGet s.user_holdings (Funding.mk params.id pk)).getD 0) 0

/-- Loop of update_holdings: insert `allocation[i]` under
    `Funding(channel, participants[i])` for each index `i`, in order;
    `none` is the panic on indexing `participants` out of bounds. -/
def update_holdings_go (params : Params) (channel : ChannelId) :
    Nat → List Nat → List (Funding × Nat) → Option (List (Funding × Nat))
  | _, [], h => some h
  | i, outcome :: rest, h =>
      match params.participants.get? i with
      | none => none
      | some pk =>
          update_holdings_go params channel (i + 1) rest
            (assocInsert h (Funding.mk channel pk) outcome)

/-- update_holdings: push a state's allocation into the holdings map,
    overwriting each participant's entry. -/
def update_holdings (holdings : List (Funding × Nat)) (params : Params) (st : State) :
    Option (List (Funding × Nat)) :=
  update_holdings_go params st.channel 0 st.allocation holdings

/-- register_channel: if the channel's holdings cannot cover the state's
    allocation, the state must be allowed to be underfunded or registration
    fails with InsufficientFunding; otherwise the holdings are overwritten
    with the outcome. In either surviving branch the state is stored under
    the channel id taken from the state itself. -/
def register_channel (s : CanisterState) (params : Params) (rs : RegisteredState) :
    Option (Except Error CanisterState) :=
  let total := holdings_total s params
  if total < rs.state.total then
    if rs.state.may_be_underfunded then
      some (Except.ok { s with channels := assocInsert s.channels rs.state.channel rs })
    else
      some (Except.error Error.InsufficientFunding)
  else
    match update_holdings s.user_holdings params rs.state with
    | none => none
    | some uh =>
        some (Except.ok
          { s with
            user_holdings := uh,
            channels := assocInsert s.channels rs.state.channel rs })

/-- Loop of calculate_required_deductions: walk the user_holdings map in its
    iteration order, greedily taking `min(available, needed)` from each
    account with a positive take, until nothing more is needed. Returns the
    remaining needed amount and the planned deductions. -/
def deduction_loop : List (Funding × Nat) → Nat → List (Funding × Nat) →
    Nat × List (Funding × Nat)
  | [], needed, acc => (needed, acc)
  | (a, available) :: rest, needed, acc =>
      if needed = 0 then (needed, acc)
      else
        let take := min available needed
        if 0 < take then deduction_loop rest (needed - take) (acc ++ [(a, take)])
        else deduction_loop rest needed acc

/-- The source's `total.0.to_u64_digits()[0]`: the least-significant base-2^64
    digit of a bignum. The digit vector of zero is empty, so indexing it
    panics (`none`); for a positive value the first digit is the value
    reduced modulo 2^64. -/
def natToU64Digit0 (n : Nat) : Option Nat :=
  if n = 0 then none else some (n % w64mod)

/-- calculate_required_deductions: plan a pool withdrawal over the
    user_holdings map. Fails with InsufficientLiquidity if the map is
    exhausted first; otherwise returns the planned total as a u64 digit
    together with the per-account deduction list. -/
def calculate_required_deductions (s : CanisterState) (amount : Nat) :
    Option (Except Error (Nat × List (Funding × Nat))) :=
  let res := deduction_loop s.user_holdings amount []
  if 0 < res.1 then some (Except.error Error.InsufficientLiquidity)
  else
    match natToU64Digit0 (amount - res.1) with
    | none => none
    | some t => some (Except.ok (t, res.2))

/-- Outcome of the asynchronous icrc1_transfer call made by
    execute_ledger_transfer: a block height, a transfer error returned by
    the ledger, or a failed inter-canister call. -/
inductive TransferOutcome where
  | ok (blockHeight : Nat)
  | transferErr
  | callErr
deriving DecidableEq

/-- execute_ledger_transfer: transfer `amount_u64` to the requested receiver;
    both the ledger's transfer errors and call failures collapse to
    LedgerError. -/
def execute_ledger_transfer (_req : WithdrawalReq) (_amount_u64 : Nat)
    (out : TransferOutcome) : Except Error Nat :=
  match out with
  | TransferOutcome.ok bh => Except.ok bh
  | TransferOutcome.transferErr => Except.error Error.LedgerError
  | TransferOutcome.callErr => Except.error Error.LedgerError

/-- apply_deductions: subtract each planned take from its account in
    user_holdings, removing entries that reach exactly zero; accounts
    missing from the map are skipped. `none` is the panic of candid Nat
    subtraction underflowing. -/
def apply_deductions (s : CanisterState) :
    List (Funding × Nat) → Option CanisterState
  | [] => some s
  | (acc, take) :: rest =>
      match assocGet s.user_holdings acc with
      | none => apply_deductions s rest
      | some v =>
          if v < take then none
          else
            let v2 := v - take
            let uh :=
              if v2 = 0 then assocRemove s.user_holdings acc
              else assocInsert s.user_holdings acc v2
            apply_deductions { s with user_holdings := uh } rest

/-- withdraw_from_liq_pool: plan the deductions, issue the external transfer
    for the planned u64 total, and commit the deductions only if the
    transfer succeeded; a failed plan surfaces as InsufficientLiquidity and
    a failed transfer as the transfer's error word, both leaving the state
    as it was. -/
def withdraw_from_liq_pool (s : CanisterState) (req : WithdrawalReq)
    (out : TransferOutcome) : Option (Except Error Nat × CanisterState) :=
  match calculate_required_deductions s req.amount with
  | none => none
  | some (Except.error _) => some (Except.error Error.InsufficientLiquidity, s)
  | some (Except.ok (totalDeducted, toDeduct)) =>
      match execute_ledger_transfer req totalDeducted out with
      | Except.ok bh =>
          match apply_deductions s toDeduct with
          | none => none
          | some s2 => some (Except.ok bh, s2)
      | Except.error e => some (Except.error e, s)

/-- The icrc1 transfer error variants matched by simple_withdraw; their
    payloads are only logged by the source and are omitted here. -/
inductive TransferError where
  | badFee
  | badBurn
  | insufficientFunds
  | tooOld
  | createdInFuture
  | temporarilyUnavailable
  | duplicate
  | genericError
deriving DecidableEq

/-- Outcome of the raw inter-canister call made by simple_withdraw. -/
inductive CallOutcome where
  | reply (result : Except TransferError Nat)
  | callError

/-- simple_withdraw: transfer `req.amount` to `req.receiver` on the ledger
    and return the resulting block height, or a numeric code identifying the
    failure. The source reads no canister state here, so the model takes
    none. -/
def simple_withdraw (_req : WithdrawalReq) (out : CallOutcome) : Nat :=
  match out with
  | CallOutcome.reply (Except.ok bh) => bh
  | CallOutcome.reply (Except.error e) =>
      match e with
      | TransferError.badFee => 111
      | TransferError.badBurn => 112
      | TransferError.insufficientFunds => 222
      | TransferError.tooOld => 333
      | TransferError.createdInFuture => 444
      | TransferError.temporarilyUnavailable => 666
      | TransferError.duplicate => 555
      | TransferError.genericError => 777
  | CallOutcome.callError => 999

/-! ### Concrete sample values used by witnesses and counterexamples -/

def sampleNonce : Nonce := Nonce.mk (List.replicate 32 0)

def samplePk : L2Account := L2Account.mk (List.replicate 33 2)

def sampleChannel : ChannelId := ChannelId.mk (List.replicate 32 1)

def samplePrincipal : Principal := Principal.mk [1]

def sampleFunding : Funding := Funding.mk sampleChannel samplePk

def sampleParams : Params := Params.mk sampleNonce [samplePk] 1

def sampleReg (v : Nat) : RegisteredState :=
  RegisteredState.mk (State.mk sampleChannel v [0] false) 0

def sampleAcct : L1Account := L1Account.mk (Principal.mk [9])

def acctA : L1Account := L1Account.mk (Principal.mk [10])

def acctB : L1Account := L1Account.mk (Principal.mk [11])

def csC1 : CanisterState := CanisterState.mk [] [(sampleChannel, sampleReg 5)] []

def csC3 : CanisterState := CanisterState.mk [] [] [(acctA, 30), (acctB, 50)]

def csC5 : CanisterState := CanisterState.mk [(sampleFunding, 2 ^ 64)] [] []

def csC6 : CanisterState := CanisterState.mk [] [] []

def rsC6 : RegisteredState :=
  RegisteredState.mk (State.mk sampleChannel 1 [5] false) 0

def rsC6v0 : RegisteredState :=
  RegisteredState.mk (State.mk sampleChannel 0 [5] false) 0

def csC7 : CanisterState := CanisterState.mk [] [] []

def rsC7 : RegisteredState :=
  RegisteredState.mk (State.mk sampleChannel 1 [0] false) 0

def csC9 : CanisterState :=
  CanisterState.mk [(sampleFunding, 5)] [(sampleChannel, sampleReg 1)] [(sampleAcct, 4)]

def csC9res : CanisterState :=
  CanisterState.mk [(sampleFunding, 2)] [(sampleChannel, sampleReg 1)] [(sampleAcct, 4)]

/-! ### Map lemmas -/

theorem assocGet_insert_self [DecidableEq κ] (l : List (κ × α)) (k : κ) (v : α) :
    assocGet (assocInsert l k v) k = some v := by
  induction l with
  | nil => simp [assocInsert, assocGet]
  | cons hd tl ih =>
    obtain ⟨k', v'⟩ := hd
    by_cases h : k = k'
    · simp [assocInsert, assocGet, h]
    · simp [assocInsert, assocGet, h, ih]

theorem assocGet_insert_ne [DecidableEq κ] (l : List (κ × α)) (k k2 : κ) (v : α)
    (h : k ≠ k2) : assocGet (assocInsert l k2 v) k = assocGet l k := by
  induction l with
  | nil => simp [assocInsert, assocGet, h]
  | cons hd tl ih =>
    obtain ⟨k', v'⟩ := hd
    by_cases h2 : k2 = k'
    · subst h2
      simp [assocInsert, assocGet, h]
    · by_cases h3 : k = k'
      · simp [assocInsert, assocGet, h2, h3]
      · simp [assocInsert, assocGet, h2, h3, ih]

/-! ### SHA-512 output shape -/

theorem beBytes8_length (n : Nat) : (beBytes8 n).length = 8 := by
  simp [beBytes8]

theorem sha512_length (msg : List Nat) : (sha512 msg).length = 64 := by
  simp [sha512, beBytes8_length]

/-! ### Withdrawal-protocol lemmas -/

theorem deduction_loop_zero (l acc : List (Funding × Nat)) :
    deduction_loop l 0 acc = (0, acc) := by
  cases l with
  | nil => rfl
  | cons hd tl => obtain ⟨a, available⟩ := hd; simp [deduction_loop]

theorem apply_deductions_frame (l : List (Funding × Nat)) :
    ∀ s s2 : CanisterState, apply_deductions s l = some s2 →
      s2.channels = s.channels ∧ s2.liq_pool_holdings = s.liq_pool_holdings := by
  induction l with
  | nil =>
    intro s s2 h
    simp [apply_deductions] at h
    subst h
    exact ⟨rfl, rfl⟩
  | cons hd tl ih =>
    intro s s2 h
    obtain ⟨acc, take⟩ := hd
    simp only [apply_deductions] at h
    rcases hg : assocGet s.user_holdings acc with _ | v
    · rw [hg] at h
      exact ih s s2 h
    · rw [hg] at h
      by_cases hv : v < take
      · simp [hv] at h
      · simp [hv] at h
        have hmid := ih _ s2 h
        exact hmid

theorem withdraw_of_calc_none (s : CanisterState) (req : WithdrawalReq)
    (out : TransferOutcome)
    (hc : calculate_required_deductions s req.amount = none) :
    withdraw_from_liq_pool s req out = none := by
  unfold withdraw_from_liq_pool
  rw [hc]

theorem withdraw_of_calc_err (s : CanisterState) (req : WithdrawalReq)
    (out : TransferOutcome) (err : Error)
    (hc : calculate_required_deductions s req.amount = some (Except.error err)) :
    withdraw_from_liq_pool s req out =
      some (Except.error Error.InsufficientLiquidity, s) := by
  unfold withdraw_from_liq_pool
  rw [hc]

theorem withdraw_of_calc_ok (s : CanisterState) (req : WithdrawalReq)
    (out : TransferOutcome) (t : Nat) (plan : List (Funding × Nat))
    (hc : calculate_required_deductions s req.amount = some (Except.ok (t, plan))) :
    withdraw_from_liq_pool s req out =
      match execute_ledger_transfer req t out with
      | Except.ok bh =>
          match apply_deductions s plan with
          | none => none
          | some s2 => some (Except.ok bh, s2)
      | Except.error e => some (Except.error e, s) := by
  unfold withdraw_from_liq_pool
  rw [hc]

/-! ### Claim C10 -/

/-- C10: the pool-withdrawal plan phase is not total: for a requested amount
    of exactly zero it always panics, because the u64 digit vector of the
    bignum zero is empty and indexing it traps. For every other outcome it
    returns a plan or the InsufficientLiquidity error. This theorem proves
    the panic at amount zero for every canister state, refuting totality. -/
theorem calc_zero_amount_panics (s : CanisterState) :
    calculate_required_deductions s 0 = none := by
  simp [calculate_required_deductions, deduction_loop_zero, natToU64Digit0]

/-! ### Claim C4 -/

/-- C4: every error outcome of withdraw_from_liq_pool leaves the canister
    state exactly as it was; an exhausted holdings map surfaces as
    InsufficientLiquidity with no mutation, and a failed external transfer
    surfaces that failure with no mutation. -/
theorem pool_withdraw_errors (s : CanisterState) (req : WithdrawalReq)
    (out : TransferOutcome) :
    (∀ e s2, withdraw_from_liq_pool s req out = some (Except.error e, s2) → s2 = s) ∧
    (∀ e, calculate_required_deductions s req.amount = some (Except.error e) →
        withdraw_from_liq_pool s req out =
          some (Except.error Error.InsufficientLiquidity, s)) ∧
    (∀ t plan e, calculate_required_deductions s req.amount = some (Except.ok (t, plan)) →
        execute_ledger_transfer req t out = Except.error e →
        withdraw_from_liq_pool s req out = some (Except.error e, s)) := by
  refine ⟨?_, ?_, ?_⟩
  · intro e s2 h
    rcases hc : calculate_required_deductions s req.amount with _ | exc
    · rw [withdraw_of_calc_none s req out hc] at h
      simp at h
    · rcases exc with err | ⟨t, plan⟩
      · rw [withdraw_of_calc_err s req out err hc] at h
        simp at h
        exact h.2.symm
      · rw [withdraw_of_calc_ok s req out t plan hc] at h
        rcases hex : execute_ledger_transfer req t out with e2 | bh
        · simp [hex] at h
          obtain ⟨-, h2⟩ := h
          subst h2
          rfl
        · rcases ha : apply_deductions s plan with _ | s3
          · simp [hex, ha] at h
          · simp [hex, ha] at h
  · intro e hc
    rw [withdraw_of_calc_err s req out e hc]
  · intro t plan e hc hex
    rw [withdraw_of_calc_ok s req out t plan hc, hex]

/-- Witness for C4 at a concrete input: on an empty holdings map a request
    for one unit fails with InsufficientLiquidity and the state is returned
    unchanged. -/
theorem pool_withdraw_errors_witness :
    calculate_required_deductions (CanisterState.mk [] [] [])
        (WithdrawalReq.mk samplePrincipal 1).amount =
      some (Except.error Error.InsufficientLiquidity) ∧
    withdraw_from_liq_pool (CanisterState.mk [] [] [])
        (WithdrawalReq.mk samplePrincipal 1) (TransferOutcome.ok 1) =
      some (Except.error Error.InsufficientLiquidity, CanisterState.mk [] [] []) :=
  ⟨rfl,
   (pool_withdraw_errors (CanisterState.mk [] [] [])
      (WithdrawalReq.mk samplePrincipal 1) (TransferOutcome.ok 1)).2.1
     Error.InsufficientLiquidity rfl⟩

/-! ### Claim C9 -/

/-- C9: no execution path of withdraw_from_liq_pool that produces a state
    changes the channels registry or the liq_pool_holdings map; the only
    map it ever mutates is user_holdings. -/
theorem pool_withdraw_frame (s : CanisterState) (req : WithdrawalReq)
    (out : TransferOutcome) :
    ∀ r s2, withdraw_from_liq_pool s req out = some (r, s2) →
      s2.channels = s.channels ∧ s2.liq_pool_holdings = s.liq_pool_holdings := by
  intro r s2 h
  rcases hc : calculate_required_deductions s req.amount with _ | exc
  · rw [withdraw_of_calc_none s req out hc] at h
    simp at h
  · rcases exc with err | ⟨t, plan⟩
    · rw [withdraw_of_calc_err s req out err hc] at h
      simp at h
      rw [← h.2]
      exact ⟨rfl, rfl⟩
    · rw [withdraw_of_calc_ok s req out t plan hc] at h
      rcases hex : execute_ledger_transfer req t out with e2 | bh
      · simp [hex] at h
        obtain ⟨-, h2⟩ := h
        subst h2
        exact ⟨rfl, rfl⟩
      · rcases ha : apply_deductions s plan with _ | s3
        · simp [hex, ha] at h
        · simp [hex, ha] at h
          obtain ⟨-, h2⟩ := h
          subst h2
          exact apply_deductions_frame plan s s3 ha

/-- Witness for C9 at a concrete input: a successful pool withdrawal of 3
    against holdings of 5 leaves the registry and the liquidity pool as
    they were. -/
theorem pool_withdraw_frame_witness :
    withdraw_from_liq_pool csC9 (WithdrawalReq.mk samplePrincipal 3)
        (TransferOutcome.ok 7) = some (Except.ok 7, csC9res) ∧
    csC9res.channels = csC9.channels ∧
    csC9res.liq_pool_holdings = csC9.liq_pool_holdings :=
  ⟨rfl,
   pool_withdraw_frame csC9 (WithdrawalReq.mk samplePrincipal 3)
     (TransferOutcome.ok 7) (Except.ok 7) csC9res rfl⟩

/-! ### Claim C1 -/

/-- C1: register_channel performs no version check. With a version-5 state
    already stored for the channel, registering a version-3 state for the
    same channel succeeds (no OutdatedState) and overwrites the registry
    entry with the lower-versioned state, also mutating the holdings map. -/
theorem register_outdated_accepted :
    (sampleReg 3).state.version < (sampleReg 5).state.version ∧
    assocGet csC1.channels sampleChannel = some (sampleReg 5) ∧
    register_channel csC1 sampleParams (sampleReg 3) =
      some (Except.ok
        (CanisterState.mk [(Funding.mk sampleChannel samplePk, 0)]
          [(sampleChannel, sampleReg 3)] [])) :=
  ⟨by decide, rfl, rfl⟩

/-! ### Claim C2 -/

/-- C2: simple_withdraw reads no canister state at all (the model function
    has no state argument because the source consults none): with an empty
    channel registry it still succeeds, returning the transfer's block
    height, and every failure is reported as a numeric code, never as the
    NotFinalized error. -/
theorem simple_withdraw_unconditional :
    simple_withdraw (WithdrawalReq.mk samplePrincipal 7)
        (CallOutcome.reply (Except.ok 7)) = 7 ∧
    simple_withdraw (WithdrawalReq.mk samplePrincipal 7) CallOutcome.callError = 999 ∧
    simple_withdraw (WithdrawalReq.mk samplePrincipal 7)
        (CallOutcome.reply (Except.error TransferError.insufficientFunds)) = 222 :=
  ⟨rfl, rfl, rfl⟩

/-! ### Claim C3 -/

/-- C3: the pool-withdrawal plan never reads liq_pool_holdings. With the
    pool holding 30 + 50 = 80 but user_holdings empty, a withdrawal of 40
    fails with InsufficientLiquidity and leaves the state unchanged,
    instead of taking 30 from A and 10 from B and leaving the pool at
    B ↦ 40. -/
theorem pool_withdraw_ignores_pool :
    withdraw_from_liq_pool csC3 (WithdrawalReq.mk samplePrincipal 40)
        (TransferOutcome.ok 1) =
      some (Except.error Error.InsufficientLiquidity, csC3) ∧
    (csC3.liq_pool_holdings.map Prod.snd).foldl (fun x y => x + y) 0 = 80 :=
  ⟨rfl, rfl⟩

/-! ### Claim C5 -/

/-- C5: the planned total is implicitly truncated to the least-significant
    u64 digit before the external transfer. With holdings of 2 ^ 64 and a
    request for exactly 2 ^ 64, the plan deducts 2 ^ 64 from the holdings
    but the amount handed to the ledger transfer is 0. -/
theorem pool_withdraw_truncates :
    calculate_required_deductions csC5 (2 ^ 64) =
      some (Except.ok (0, [(sampleFunding, 2 ^ 64)])) ∧
    ([(sampleFunding, 2 ^ 64)].map Prod.snd).foldl (fun x y => x + y) 0 = 2 ^ 64 ∧
    (0 : Nat) ≠ 2 ^ 64 :=
  ⟨rfl, rfl, by decide⟩

/-! ### Claim C6 -/

/-- C6: when a channel's holdings total is strictly below the state's
    allocation total, registering a state with non-zero version fails with
    InsufficientFunding, while registering a non-finalized version-0 state
    succeeds, stores the state in the registry, and leaves the holdings map
    untouched. -/
theorem register_underfunded (s : CanisterState) (params : Params)
    (rs : RegisteredState) (h : holdings_total s params < rs.state.total) :
    (rs.state.version ≠ 0 →
      register_channel s params rs = some (Except.error Error.InsufficientFunding)) ∧
    (rs.state.version = 0 → rs.state.finalized = false →
      register_channel s params rs =
        some (Except.ok
          (CanisterState.mk s.user_holdings
            (assocInsert s.channels rs.state.channel rs) s.liq_pool_holdings))) := by
  constructor
  · intro hv
    simp [register_channel, h, State.may_be_underfunded, hv]
  · intro hv hf
    simp [register_channel, h, State.may_be_underfunded, hv, hf]

/-- Witness for C6 at concrete inputs: with no deposits, registering a
    version-1 state allocating 5 fails with InsufficientFunding, and
    registering the analogous version-0 state succeeds without touching the
    empty holdings map. -/
theorem register_underfunded_witness :
    holdings_total csC6 sampleParams < rsC6.state.total ∧
    register_channel csC6 sampleParams rsC6 =
      some (Except.error Error.InsufficientFunding) ∧
    register_channel csC6 sampleParams rsC6v0 =
      some (Except.ok
        (CanisterState.mk csC6.user_holdings
          (assocInsert csC6.channels rsC6v0.state.channel rsC6v0)
          csC6.liq_pool_holdings)) :=
  ⟨by decide,
   (register_underfunded csC6 sampleParams rsC6 (by decide)).1 (by decide),
   (register_underfunded csC6 sampleParams rsC6v0 (by decide)).2 (by decide) (by decide)⟩

/-! ### Claim C8 -/

theorem take_eight_getD (l : List Nat) (hl : 8 ≤ l.length) :
    l.take 8 = [l.getD 0 0, l.getD 1 0, l.getD 2 0, l.getD 3 0,
                l.getD 4 0, l.getD 5 0, l.getD 6 0, l.getD 7 0] := by
  match l, hl with
  | a0 :: a1 :: a2 :: a3 :: a4 :: a5 :: a6 :: a7 :: rest, _ => rfl
  | [], h => simp at h
  | [a0], h => simp at h
  | [a0, a1], h => simp at h
  | [a0, a1, a2], h => simp at h
  | [a0, a1, a2, a3], h => simp at h
  | [a0, a1, a2, a3, a4], h => simp at h
  | [a0, a1, a2, a3, a4, a5], h => simp at h
  | [a0, a1, a2, a3, a4, a5, a6], h => simp at h

/-- C8: the memo of a funding is exactly the first eight bytes of the
    SHA-512 digest of the channel id concatenated with the participant's
    serialised public key, interpreted as a little-endian u64. -/
theorem memo_first_eight_le_bytes (f : Funding) :
    Funding.memo f =
      u64FromLeBytes
        ((Hash.digest (f.channel.bytes ++ f.participant.bytes)).take 8) := by
  have h64 : (Hash.digest (f.channel.bytes ++ f.participant.bytes)).length = 64 :=
    sha512_length _
  rw [take_eight_getD _ (by rw [h64]; omega)]
  rfl

/-! ### Claim C7 -/

theorem update_holdings_go_spec (params : Params) (channel : ChannelId)
    (alloc : List Nat) :
    ∀ (start : Nat) (h : List (Funding × Nat)),
      start + alloc.length ≤ params.participants.length →
      params.participants.Nodup →
      ∃ res, update_holdings_go params channel start alloc h = some res ∧
        (∀ j pk, j < alloc.length →
            params.participants.get? (start + j) = some pk →
            assocGet res (Funding.mk channel pk) = alloc.get? j) ∧
        (∀ k, (∀ j pk, j < alloc.length →
              params.participants.get? (start + j) = some pk →
              k ≠ Funding.mk channel pk) →
            assocGet res k = assocGet h k) := by
  induction alloc with
  | nil =>
    intro start h _ _
    refine ⟨h, rfl, ?_, fun k _ => rfl⟩
    intro j pk hj
    simp at hj
  | cons a rest ih =>
    intro start h hle hnd
    have hstart : start < params.participants.length := by
      simp at hle
      omega
    obtain ⟨pk0, hpk0⟩ : ∃ pk0, params.participants.get? start = some pk0 :=
      ⟨params.participants.get ⟨start, hstart⟩, List.get?_eq_get hstart⟩
    have hgo : update_holdings_go params channel start (a :: rest) h =
        update_holdings_go params channel (start + 1) rest
          (assocInsert h (Funding.mk channel pk0) a) := by
      simp only [update_holdings_go]
      rw [hpk0]
    obtain ⟨res, hres, hmain, hframe⟩ :=
      ih (start + 1) (assocInsert h (Funding.mk channel pk0) a)
        (by simp at hle ⊢; omega) hnd
    refine ⟨res, by rw [hgo]; exact hres, ?_, ?_⟩
    · intro j pk hj hg
      match j with
      | 0 =>
        rw [Nat.add_zero, hpk0] at hg
        injection hg with hpk
        subst hpk
        have hpres : assocGet res (Funding.mk channel pk0) =
            assocGet (assocInsert h (Funding.mk channel pk0) a)
              (Funding.mk channel pk0) := by
          apply hframe
          intro j2 pk2 hj2 hg2 heq
          rw [Funding.mk.injEq] at heq
          obtain ⟨-, hpkeq⟩ := heq
          subst hpkeq
          have hij : start = start + 1 + j2 :=
            List.get?_inj hstart hnd (hpk0.trans hg2.symm)
          omega
        rw [hpres, assocGet_insert_self]
        rfl
      | j2 + 1 =>
        have hrec := hmain j2 pk (by simpa using hj)
          (by rw [show start + 1 + j2 = start + (j2 + 1) by omega]; exact hg)
        simpa using hrec
    · intro k hk
      have h1 : assocGet res k =
          assocGet (assocInsert h (Funding.mk channel pk0) a) k := by
        apply hframe
        intro j2 pk2 hj2 hg2
        exact hk (j2 + 1) pk2 (by simpa using hj2)
          (by rw [show start + (j2 + 1) = start + 1 + j2 by omega]; exact hg2)
      have hk0 : k ≠ Funding.mk channel pk0 :=
        hk 0 pk0 (by simp) (by simpa using hpk0)
      rw [h1, assocGet_insert_ne _ _ _ _ hk0]

/-- C7: when the channel is fully funded, register_channel overwrites each
    participant's holdings entry with the corresponding allocation entry
    (replacing, not adding to, any prior deposit balance), stores the
    state, and leaves the liquidity pool untouched. -/
theorem register_funded_overwrites (s : CanisterState) (params : Params)
    (rs : RegisteredState)
    (hfund : ¬ holdings_total s params < rs.state.total)
    (hlen : rs.state.allocation.length ≤ params.participants.length)
    (hnd : params.participants.Nodup)
    (i : Nat) (pk : L2Account) (hi : i < rs.state.allocation.length)
    (hpk : params.participants.get? i = some pk) :
    ∃ s2, register_channel s params rs = some (Except.ok s2) ∧
      assocGet s2.user_holdings (Funding.mk rs.state.channel pk) =
        rs.state.allocation.get? i ∧
      s2.channels = assocInsert s.channels rs.state.channel rs ∧
      s2.liq_pool_holdings = s.liq_pool_holdings := by
  obtain ⟨res, hres, hmain, -⟩ :=
    update_holdings_go_spec params rs.state.channel rs.state.allocation 0
      s.user_holdings (by omega) hnd
  refine ⟨CanisterState.mk res (assocInsert s.channels rs.state.channel rs)
      s.liq_pool_holdings, ?_, ?_, rfl, rfl⟩
  · simp [register_channel, hfund, update_holdings, hres]
  · exact hmain i pk hi (by simpa using hpk)

/-- Witness for C7 at concrete inputs: with the single participant fully
    covering an allocation of zero, registration succeeds, the participant's
    entry is overwritten with the allocation value, and the state is
    stored. -/
theorem register_funded_overwrites_witness :
    (¬ holdings_total csC7 sampleParams < rsC7.state.total) ∧
    ∃ s2, register_channel csC7 sampleParams rsC7 = some (Except.ok s2) ∧
      assocGet s2.user_holdings (Funding.mk rsC7.state.channel samplePk) =
        rsC7.state.allocation.get? 0 ∧
      s2.channels = assocInsert csC7.channels rsC7.state.channel rsC7 ∧
      s2.liq_pool_holdings = csC7.liq_pool_holdings :=
  ⟨by decide,
   register_funded_overwrites csC7 sampleParams rsC7 (by decide) (by decide)
     (by decide) 0 samplePk (by decide) (by decide)⟩

end CkLightning
